import Mathlib

/-!
Shallow embedding of the `uwx/labeler` label log and distribution engine.

Source files embedded:
* `src/src/db-provider.ts` — `DefaultDbProvider` (`saveLabel`, `searchLabels`,
  `isCursorInTheFuture`, `iterateLabels`) over a SQLite `labels` table;
* `src/unnamed/part_000` — `LabelerServer` (`saveLabel`, `createLabel`,
  `createLabels`, `emitLabel`, `subscribeLabelsHandler`, `emitEventHandler`).

The SQLite engine itself is external; it is modelled as a list of rows plus an
AUTOINCREMENT counter (`seq`): on an initially empty table SQLite assigns rowids
1, 2, 3, … and a failed INSERT leaves no partial record.  A fault oracle
`insertOk` indexed by a statement-attempt counter models the `result.changes`
check in `saveLabel` (spec section 4.2: append failures surface to the caller,
no partial record remains).  Machine strings are Lean `String`s, ids are `Nat`,
signature blobs are `List Nat`.
-/

namespace Labeler

/-- Error values surfaced by the embedded code: `XRPCError(status, {kind, description})`
from `@atcute/client`, or a plain `Error(message)`. -/
inductive Err where
  | xrpc (status : Nat) (kind : String) (description : String)
  | other (message : String)
deriving DecidableEq, Repr

/-- A label record as the server handles it (`UnsignedLabel`/`SignedLabel` from
`src/unnamed/part_001`): `sig := none` models the absent `sig` key of an
`UnsignedLabel`; `SignedLabel` carries `some` signature bytes. -/
structure Label where
  src : String
  uri : String
  cid : Option String
  val : String
  neg : Option Bool
  cts : String
  exp : Option String
  ver : Option Nat
  sig : Option (List Nat)
deriving DecidableEq, Repr

/-- A row of the SQLite `labels` table (`CREATE TABLE` in
`DefaultDbProvider`'s constructor): `neg` is stored as `neg ? 1 : 0`, hence a
plain `Bool` here. -/
structure Row where
  id : Nat
  src : String
  uri : String
  cid : Option String
  val : String
  neg : Bool
  cts : String
  exp : Option String
  sig : Option (List Nat)
deriving DecidableEq, Repr

/-- The durable store: the `labels` table rows, the AUTOINCREMENT counter
(`seq` = highest id ever assigned; 0 when the table was always empty), a
statement-attempt counter and a fault oracle saying whether the n-th INSERT
attempt succeeds (models `result.changes === 0` / storage faults). -/
structure Db where
  rows : List Row
  seq : Nat
  attempts : Nat
  insertOk : Nat → Bool

/-- A database holding the given rows, with an always-succeeding fault oracle. -/
def dbOf (rs : List Row) : Db :=
  { rows := rs
    seq := (rs.map Row.id).foldr max 0
    attempts := 0
    insertOk := fun _ => true }

/-- An empty database with the given fault oracle. -/
def emptyDb (ok : Nat → Bool) : Db :=
  { rows := [], seq := 0, attempts := 0, insertOk := ok }

/-- The row written by the INSERT in `DefaultDbProvider.saveLabel`
(`neg ? 1 : 0` stores absent/false `neg` as 0). -/
def rowOfLabel (id : Nat) (l : Label) : Row :=
  { id := id, src := l.src, uri := l.uri, cid := l.cid, val := l.val
    neg := l.neg.getD false, cts := l.cts, exp := l.exp, sig := l.sig }

/-- Successful-INSERT path: SQLite assigns `seq + 1` as the new rowid
(AUTOINCREMENT on an append-only table) and returns it as `lastInsertRowid`. -/
def Db.insert (db : Db) (l : Label) : Nat × Db :=
  let id := db.seq + 1
  (id,
   { db with
      rows := db.rows ++ [rowOfLabel id l]
      seq := id
      attempts := db.attempts + 1 })

/-- The `throw new Error("Failed to insert label")` of `DefaultDbProvider.saveLabel`. -/
def insertErr : Err := Err.other "Failed to insert label"

/-- `DefaultDbProvider.saveLabel`: runs the INSERT; on success returns
`Number(result.lastInsertRowid)`, on failure (`!result.changes`) throws and
leaves no partial record. -/
def saveLabelDb (db : Db) (l : Label) : Except Err Nat × Db :=
  if db.insertOk db.attempts then
    let r := db.insert l
    (Except.ok r.1, r.2)
  else
    (Except.error insertErr, { db with attempts := db.attempts + 1 })

/-- `MAX(id)` as read by `isCursorInTheFuture`: on an empty table the SQL MAX
is NULL, which the JS comparison `cursor > latest.id` coerces to 0. -/
def Db.maxId (db : Db) : Nat :=
  (db.rows.map Row.id).foldr max 0

/-- `DefaultDbProvider.isCursorInTheFuture`: `cursor > MAX(id)`. -/
def isCursorInTheFuture (db : Db) (cursor : Nat) : Bool :=
  decide (db.maxId < cursor)

/-- Insertion step of `ORDER BY id ASC`. -/
def insertById (r : Row) : List Row → List Row
  | [] => [r]
  | s :: ss => if r.id ≤ s.id then r :: s :: ss else s :: insertById r ss

/-- `ORDER BY id ASC` (insertion sort by id). -/
def sortById : List Row → List Row
  | [] => []
  | r :: rs => insertById r (sortById rs)

/-- SQLite's ASCII-only case folding used by LIKE (`'A'..'Z'` fold to lower
case, every other character compares literally). -/
def foldAscii (c : Char) : Char := c.toLower

/-- Pattern-side step of the LIKE matcher against a non-empty text `c :: cs'`,
where `f` matches a pattern against the shorter text `cs'` and
`likeInner c f ps` matches `ps` against `c :: cs'`: a `%` either matches the
empty sequence (recurse on the rest of the pattern, same text) or absorbs `c`
(same pattern, shorter text); `_` matches exactly `c`; any other pattern
character must equal `c` up to ASCII case folding. -/
def likeInner (c : Char) (f : List Char → Bool) : List Char → Bool
  | [] => false
  | p :: ps' =>
    if p = '%' then likeInner c f ps' || f (p :: ps')
    else if p = '_' then f ps'
    else foldAscii p == foldAscii c && f ps'

/-- Text-side recursion of the LIKE matcher: the empty text is matched exactly
by the all-`%` patterns. -/
def likeAux : List Char → List Char → Bool
  | [] => fun ps => ps.all (fun x => x = '%')
  | c :: cs' => likeInner c (likeAux cs')

/-- SQLite `LIKE pattern` with no ESCAPE clause: `%` matches any (possibly
empty) sequence, `_` matches exactly one character, a backslash is an ordinary
literal character, and letter comparison is ASCII case-insensitive.
`likeMatch ps cs` is true iff the text `cs` matches the pattern `ps`. -/
def likeMatch (ps cs : List Char) : Bool := likeAux cs ps

/-- `pattern.replaceAll(/%/g, "")` in `searchLabels`. -/
def removePercent (cs : List Char) : List Char := cs.filter (fun c => c ≠ '%')

/-- `pattern.replaceAll(/_/g, "\\_")` in `searchLabels` (note: the SQL has no
ESCAPE clause, so the inserted backslash is a literal character for LIKE). -/
def escapeUnderscore : List Char → List Char
  | [] => []
  | c :: cs =>
    if c = '_' then '\\' :: '_' :: escapeUnderscore cs
    else c :: escapeUnderscore cs

/-- `pattern.indexOf("*")`: index of the first `*`, `none` when absent. -/
def firstStarIdx : List Char → Option Nat
  | [] => none
  | c :: cs => if c = '*' then some 0 else (firstStarIdx cs).map (· + 1)

/-- The `XRPCError` thrown for a non-trailing wildcard in `searchLabels`. -/
def unsupportedPatternErr : Err :=
  Err.xrpc 400 "InvalidRequest" "Only trailing wildcards are supported in uriPatterns"

/-- The pattern after the two `replaceAll` calls of `searchLabels`
(`%` stripped, then `_` escaped). -/
def processedChars (p : String) : List Char :=
  escapeUnderscore (removePercent p.toList)

/-- Per-pattern preprocessing in `DefaultDbProvider.searchLabels`: strip `%`,
escape `_`, then either pass the pattern through (no `*`), translate one
trailing `*` to SQL `%` (`pattern.slice(0, -1) + "%"`), or throw for a `*`
anywhere else. -/
def processPattern (p : String) : Except Err String :=
  match firstStarIdx (processedChars p) with
  | none => Except.ok (String.mk (processedChars p))
  | some i =>
    if i = (processedChars p).length - 1 then
      Except.ok (String.mk ((processedChars p).dropLast ++ ['%']))
    else Except.error unsupportedPatternErr

/-- Whether the pattern, after `%` removal (and `_` escaping, which cannot
change whether the first `*` is last), still contains a `*` at a non-final
position — exactly the condition under which `processPattern` throws. -/
def interiorStarAfterPercentRemoval (p : String) : Bool :=
  match firstStarIdx (processedChars p) with
  | none => false
  | some i => decide (i ≠ (processedChars p).length - 1)

/-- The `src IN (...)` clause, present only when `sources` is non-empty. -/
def srcCond (sources : List String) (r : Row) : Bool :=
  if sources.isEmpty then true else sources.contains r.src

/-- The `id > ?` clause, present only when `cursor` is truthy (present and
non-zero). -/
def cursorCond (cursor : Option Nat) (r : Row) : Bool :=
  match cursor with
  | none => true
  | some n => if n ≠ 0 then decide (n < r.id) else true

/-- The WHERE clause of `searchLabels` as SQL parses it.  The template is
`1 = 1 AND uri LIKE ?₁ OR uri LIKE ?₂ … OR uri LIKE ?ₙ AND src IN (…) AND id > ?`
and SQL `AND` binds tighter than `OR`, so the OR-operands are
`1=1 AND LIKE ?₁`, then each middle `LIKE ?ᵢ` bare, and finally
`LIKE ?ₙ AND src-clause AND cursor-clause`; with no patterns the clause is
`1=1 AND src-clause AND cursor-clause`. -/
def sqlWhere (ps : List (List Char)) (uri : List Char) (sc cc : Bool) : Bool :=
  match ps with
  | [] => sc && cc
  | [p] => likeMatch p uri && sc && cc
  | p :: ps' => likeMatch p uri || sqlWhere ps' uri sc cc

/-- `DefaultDbProvider.searchLabels`: preprocess the patterns (dropping them
all when the list contains a literal `"*"`), run the SELECT with the WHERE
clause above, `ORDER BY id ASC`, `LIMIT limit`. -/
def searchLabels (db : Db) (cursor : Option Nat) (limit : Nat)
    (uriPatterns sources : List String) : Except Err (List Row) := do
  let patterns ←
    if uriPatterns.contains "*" then pure []
    else uriPatterns.mapM processPattern
  let hits := db.rows.filter fun r =>
    sqlWhere (patterns.map String.toList) r.uri.toList
      (srcCond sources r) (cursorCond cursor r)
  pure ((sortById hits).take limit)

/-- `DefaultDbProvider.iterateLabels`: all rows with `id > cursor`,
ascending by id. -/
def iterateLabels (db : Db) (cursor : Nat) : List Row :=
  sortById (db.rows.filter fun r => decide (cursor < r.id))

/-- Modelled from the spec: `labelIsSigned` lives in `src/util/labels.ts`,
which is not under `src/`; per spec section 4.1 a label counts as signed when
it already carries a non-empty `sig`. -/
def labelIsSigned (l : Label) : Bool :=
  match l.sig with
  | some bs => !bs.isEmpty
  | none => false

/-- Modelled from the spec: the canonical byte encoding of the unsigned
fields (spec section 4.1) computed by `src/util/labels.ts`; opaque to this
development, only its determinism matters. -/
def encodeLabel (l : Label) : List Nat :=
  ((l.src ++ l.uri ++ l.val ++ l.cts).toList).map Char.toNat

/-- Modelled from the spec: `signLabel` from `src/util/labels.ts` attaches
signature bytes computed from the canonical encoding and the private key; a
real signature is a non-empty byte string (modelled by the leading byte). -/
def signLabel (l : Label) (key : List Nat) : Label :=
  { l with sig := some (1 :: (encodeLabel l ++ key)) }

/-- The record the server returns: `{ id, ...signed }` in
`LabelerServer.saveLabel`. -/
structure SavedLabel where
  id : Nat
  label : Label
deriving DecidableEq, Repr

/-- The labeler server's state: the store plus the configuration
(`did`, parsed signing key) and the current clock reading used for
`new Date().toISOString()`. -/
structure SState where
  db : Db
  did : String
  signingKey : List Nat
  now : String

/-- The signing step of `LabelerServer.saveLabel` (src/unnamed/part_000 line
115): `labelIsSigned(label) ? label : signLabel(label, this.signingKey)`. -/
def resignStep (key : List Nat) (l : Label) : Label :=
  if labelIsSigned l then l else signLabel l key

/-- `LabelerServer.saveLabel` (src/unnamed/part_000 lines 114-121): sign
unless already signed, append via the provider, return `{ id, ...signed }`.
(The `emitLabel` fan-out is modelled separately in the subscription machine.) -/
def serverSaveLabel (st : SState) (l : Label) : Except Err SavedLabel × SState :=
  let signed := resignStep st.signingKey l
  match saveLabelDb st.db signed with
  | (Except.ok id, db') => (Except.ok { id := id, label := signed }, { st with db := db' })
  | (Except.error e, db') => (Except.error e, { st with db := db' })

/-- `CreateLabelData` from `src/unnamed/part_001`. -/
structure CreateLabelData where
  val : String
  uri : String
  cid : Option String
  neg : Option Bool
  src : Option String
  cts : Option String
  exp : Option String
deriving DecidableEq, Repr

/-- `LabelerServer.createLabel`: fill `src` with the labeler DID and `cts`
with the current time when absent, drop nullish fields (`excludeNullish`; in
the `Option` model absent fields are already `none`), then save. -/
def createLabel (st : SState) (d : CreateLabelData) : Except Err SavedLabel × SState :=
  serverSaveLabel st
    { src := d.src.getD st.did
      uri := d.uri
      cid := d.cid
      val := d.val
      neg := d.neg
      cts := d.cts.getD st.now
      exp := d.exp
      ver := none
      sig := none }

/-- The `subject` argument of `LabelerServer.createLabels`. -/
structure SubjectRef where
  uri : String
  cid : Option String
deriving DecidableEq, Repr

/-- One `for (const val of …) { … createLabel … push }` loop of
`LabelerServer.createLabels`: a thrown error propagates, earlier results are
kept. -/
def createMany (subj : SubjectRef) (negv : Option Bool) :
    SState → List String → Except Err (List SavedLabel) × SState
  | st, [] => (Except.ok [], st)
  | st, v :: vs =>
    match createLabel st
        { val := v, uri := subj.uri, cid := subj.cid, neg := negv
          src := none, cts := none, exp := none } with
    | (Except.ok l, st') =>
      match createMany subj negv st' vs with
      | (Except.ok ls, st'') => (Except.ok (l :: ls), st'')
      | (Except.error e, st'') => (Except.error e, st'')
    | (Except.error e, st') => (Except.error e, st')

/-- `LabelerServer.createLabels`: run the create loop (plain `createLabel`
calls), then the negate loop (`neg: true`), accumulating in call order; an
error in either loop aborts the whole call, keeping whatever was appended. -/
def createLabels (st : SState) (subj : SubjectRef)
    (create negate : Option (List String)) : Except Err (List SavedLabel) × SState :=
  match createMany subj none st (create.getD []) with
  | (Except.error e, st') => (Except.error e, st')
  | (Except.ok ls1, st') =>
    match createMany subj (some true) st' (negate.getD []) with
    | (Except.error e, st'') => (Except.error e, st'')
    | (Except.ok ls2, st'') => (Except.ok (ls1 ++ ls2), st'')

/-- The `event` object of a `tools.ozone.moderation.emitEvent` request body
(`$type` plus the label value lists). -/
structure ModEvent where
  etype : String
  createLabelVals : Option (List String)
  negateLabelVals : Option (List String)
deriving DecidableEq, Repr

/-- The `subject` object of an emitEvent request: a
`com.atproto.admin.defs#repoRef` (a `did`), a `com.atproto.repo.strongRef`
(`uri` + `cid`), or any other `$type`. -/
inductive EventSubject where
  | repoRef (did : String)
  | strongRef (uri : String) (cid : String)
  | otherSubject
deriving DecidableEq, Repr

/-- The JSON request body of `emitEventHandler`; `none` models an absent key.
An absent or empty-string `createdBy` is falsy in the JS check. -/
structure EmitEventBody where
  event : Option ModEvent
  subject : Option EventSubject
  subjectBlobCids : Option (List String)
  createdBy : Option String
deriving DecidableEq, Repr

/-- The JSON response of `emitEventHandler` (the parts built by this core:
first created label's id, echoed `createdBy`, server-assigned `createdAt`). -/
structure EmitOutput where
  id : Nat
  createdBy : String
  createdAt : String
deriving DecidableEq, Repr

/-- JS string truthiness: `undefined` and `""` are falsy. -/
def truthyStr (s : Option String) : Bool :=
  match s with
  | none => false
  | some s => !(s.isEmpty)

/-- JS `list?.length` truthiness: `undefined` and `[]` are falsy. -/
def truthyLen (l : Option (List String)) : Bool :=
  !(l.getD []).isEmpty

/-- The `uri` extracted from the subject by `emitEventHandler` (`null` for an
unrecognized `$type`). -/
def subjectUri (s : EventSubject) : Option String :=
  match s with
  | EventSubject.repoRef did => some did
  | EventSubject.strongRef uri _ => some uri
  | EventSubject.otherSubject => none

/-- The `cid` extracted from the subject by `emitEventHandler`. -/
def subjectCid (s : EventSubject) : Option String :=
  match s with
  | EventSubject.strongRef _ cid => some cid
  | _ => none

/-- `LabelerServer.emitEventHandler` after the auth step (the JWT check is an
external collaborator; this models the body validation and the label batch):
missing `event`/`subject`/`createdBy` → `InvalidRequest`; wrong event `$type`
→ `InvalidRequest`; no label values → `InvalidRequest`; unresolvable subject
`uri` → `InvalidRequest`; otherwise expand via `createLabels` and answer with
the first label's id. -/
def emitEvent (st : SState) (body : EmitEventBody) : Except Err EmitOutput × SState :=
  match body.event, body.subject, body.createdBy with
  | some ev, some subj, some cb =>
    if cb.isEmpty then
      (Except.error (Err.xrpc 400 "InvalidRequest" "Missing required field(s)"), st)
    else if ev.etype ≠ "tools.ozone.moderation.defs#modEventLabel" then
      (Except.error (Err.xrpc 400 "InvalidRequest" "Unsupported event type"), st)
    else if !truthyLen ev.createLabelVals && !truthyLen ev.negateLabelVals then
      (Except.error (Err.xrpc 400 "InvalidRequest" "Must provide at least one label value"), st)
    else
      match truthyStr (subjectUri subj), subjectUri subj with
      | true, some uri =>
        match createLabels st { uri := uri, cid := subjectCid subj }
            ev.createLabelVals ev.negateLabelVals with
        | (Except.error e, st') => (Except.error e, st')
        | (Except.ok ls, st') =>
          match ls.head? with
          | some l0 =>
            if l0.id = 0 then
              (Except.error (Err.other "No labels were created"), st')
            else
              (Except.ok { id := l0.id, createdBy := cb, createdAt := st'.now }, st')
          | none => (Except.error (Err.other "No labels were created"), st')
      | _, _ =>
        (Except.error (Err.xrpc 400 "InvalidRequest" "Invalid subject"), st)
  | _, _, _ =>
    (Except.error (Err.xrpc 400 "InvalidRequest" "Missing required field(s)"), st)

/-- A frame sent to one WebSocket subscriber: a `#labels` message frame
(`{seq, labels:[…]}`, identified here by the sequence id and label value) or a
terminal error frame (`FutureCursor` / `InternalServerError`). -/
inductive Frame where
  | msg (seq : Nat) (val : String)
  | errFuture
  | errInternal
deriving DecidableEq, Repr

/-- Progress of one subscriber through `subscribeLabelsHandler.onOpen`
(src/unnamed/part_000 lines 210-264), with one phase per stretch of code
between `await` points:
`checking` = about to run the `isCursorInTheFuture` test; `scanning last` =
inside the `for await` catch-up loop, having already sent every row with
id ≤ `last`; `finishing` = the loop observed no further row but
`addSubscription` has not run yet (the await boundary after the iterator's
final `done`); `live` = registered in `connections` (every `emitLabel` now
reaches it); `closed` = the handler closed the socket. -/
inductive Phase where
  | checking
  | scanning (last : Nat)
  | finishing
  | live
  | closed
deriving DecidableEq, Repr

/-- Joint state of the store and one connecting subscriber. -/
structure WsState where
  db : Db
  phase : Phase
  frames : List Frame

/-- An interleaving event: `sub` runs the subscriber's next handler step,
`app l` models another request completing `createLabel` (store insert, then
`emitLabel` fan-out to the currently registered connections). -/
inductive Ev where
  | sub
  | app (l : Label)

/-- The next catch-up row: first row of `iterateLabels` past `last`. -/
def nextRow (db : Db) (last : Nat) : Option Row :=
  (iterateLabels db last).head?

/-- One interleaving step.  The subscriber connects with a numeric `cursor`
query parameter.  `emitLabel` sends only to registered connections, so an
`app` while the subscriber is not yet `live` updates the store without
sending it a frame. -/
def wsStep (cursor : Nat) (s : WsState) : Ev → WsState
  | Ev.sub =>
    match s.phase with
    | Phase.checking =>
      if isCursorInTheFuture s.db cursor then
        { s with phase := Phase.closed, frames := s.frames ++ [Frame.errFuture] }
      else
        { s with phase := Phase.scanning cursor }
    | Phase.scanning last =>
      match nextRow s.db last with
      | some r =>
        { s with phase := Phase.scanning r.id
                 frames := s.frames ++ [Frame.msg r.id r.val] }
      | none => { s with phase := Phase.finishing }
    | Phase.finishing => { s with phase := Phase.live }
    | Phase.live => s
    | Phase.closed => s
  | Ev.app l =>
    let r := s.db.insert l
    if s.phase = Phase.live then
      { s with db := r.2, frames := s.frames ++ [Frame.msg r.1 l.val] }
    else
      { s with db := r.2 }

/-- Run a schedule of interleaving events. -/
def wsRun (cursor : Nat) (s : WsState) : List Ev → WsState
  | [] => s
  | e :: es => wsRun cursor (wsStep cursor s e) es

/-- A freshly connected subscriber over the given store. -/
def wsInit (db : Db) : WsState :=
  { db := db, phase := Phase.checking, frames := [] }

/-- A sequence of `DefaultDbProvider.saveLabel` calls, collecting the ids of
the successful ones. -/
def appendAll : Db → List Label → List Nat × Db
  | db, [] => ([], db)
  | db, l :: ls =>
    match saveLabelDb db l with
    | (Except.ok id, db') =>
      let r := appendAll db' ls
      (id :: r.1, r.2)
    | (Except.error _, db') => appendAll db' ls

/-! ## Shared concrete sample data -/

/-- A sample stored row used in concrete evaluations. -/
def srow : Row :=
  { id := 1, src := "s1", uri := "a", cid := none, val := "x"
    neg := false, cts := "t", exp := none, sig := none }

/-- A sample unsigned label. -/
def sampleLabel : Label :=
  { src := "did:web:me", uri := "at://x", cid := none, val := "spam"
    neg := none, cts := "T0", exp := none, ver := none, sig := none }

/-- A sample server state over an empty store that accepts every insert. -/
def sampleState : SState :=
  { db := emptyDb (fun _ => true), did := "did:web:me"
    signingKey := [7, 7], now := "2024-01-01T00:00:00Z" }

/-! ## Helper lemmas -/

/-- Once the handler has closed the socket, no further interleaving event
changes the subscriber's phase or sends it another frame. -/
theorem wsRun_closed (c : Nat) :
    ∀ (evs : List Ev) (s : WsState), s.phase = Phase.closed →
      (wsRun c s evs).phase = Phase.closed ∧ (wsRun c s evs).frames = s.frames := by
  intro evs
  induction evs with
  | nil => intro s h; exact ⟨h, rfl⟩
  | cons e es ih =>
    intro s h
    cases e with
    | sub =>
      have hs : wsStep c s Ev.sub = s := by
        simp [wsStep, h]
      rw [wsRun, hs]
      exact ih s h
    | app l =>
      have hs : wsStep c s (Ev.app l) = { s with db := (s.db.insert l).2 } := by
        simp [wsStep, h]
      rw [wsRun, hs]
      exact ih _ h

/-- With an all-accepting fault oracle, `appendAll` assigns the consecutive
ids `seq+1, seq+2, …`. -/
theorem appendAll_ok_ids (ls : List Label) :
    ∀ db : Db, (∀ n, db.insertOk n = true) →
      (appendAll db ls).1 = List.range' (db.seq + 1) ls.length := by
  induction ls with
  | nil => intro db _; simp [appendAll]
  | cons l ls ih =>
    intro db h
    simp only [appendAll, saveLabelDb, h db.attempts, if_true, Db.insert, List.length_cons]
    rw [List.range'_succ]
    have := ih { db with
        rows := db.rows ++ [rowOfLabel (db.seq + 1) l]
        seq := db.seq + 1
        attempts := db.attempts + 1 } (fun n => h n)
    simp only at this
    simp [this]

/-- `processPattern` throws exactly when the processed pattern has an
interior star. -/
theorem processPattern_interior (p : String)
    (h : interiorStarAfterPercentRemoval p = true) :
    processPattern p = Except.error unsupportedPatternErr := by
  unfold interiorStarAfterPercentRemoval at h
  unfold processPattern
  cases hs : firstStarIdx (processedChars p) with
  | none => rw [hs] at h; simp at h
  | some i =>
    rw [hs] at h
    simp only [decide_eq_true_eq] at h
    simp [h]

/-- The only error `processPattern` ever produces is the
unsupported-pattern `XRPCError`. -/
theorem processPattern_error_eq (p : String) (e : Err)
    (h : processPattern p = Except.error e) : e = unsupportedPatternErr := by
  unfold processPattern at h
  cases hs : firstStarIdx (processedChars p) with
  | none => rw [hs] at h; cases h
  | some i =>
    rw [hs] at h
    dsimp only at h
    by_cases hi : i = (processedChars p).length - 1
    · rw [if_pos hi] at h; cases h
    · rw [if_neg hi] at h
      cases h
      rfl

/-- Bind on `Except` propagates an error. -/
theorem except_bind_error {α β : Type} (e : Err) (g : α → Except Err β) :
    (Except.error e >>= g : Except Err β) = Except.error e := rfl

/-- If some pattern in the list fails `processPattern`, the whole `mapM`
fails with the unsupported-pattern error. -/
theorem mapM_processPattern_error (ps : List String) (p : String) (hp : p ∈ ps)
    (he : processPattern p = Except.error unsupportedPatternErr) :
    ∀ acc : List String,
      List.mapM.loop processPattern ps acc =
        (Except.error unsupportedPatternErr : Except Err (List String)) := by
  induction ps with
  | nil => cases hp
  | cons q qs ih =>
    intro acc
    rcases List.mem_cons.mp hp with rfl | hmem
    · simp [List.mapM.loop, he, except_bind_error]
    · cases hq : processPattern q with
      | error e =>
        have := processPattern_error_eq q e hq
        subst this
        simp [List.mapM.loop, hq, except_bind_error]
      | ok s =>
        simp only [List.mapM.loop, hq]
        exact ih hmem _

/-- Underscore escaping is the identity on underscore-free character lists. -/
theorem escapeUnderscore_id (cs : List Char) (h : '_' ∉ cs) :
    escapeUnderscore cs = cs := by
  induction cs with
  | nil => rfl
  | cons c cs ih =>
    have hc : c ≠ '_' := fun he => h (he ▸ List.mem_cons_self c cs)
    simp [escapeUnderscore, hc, ih (fun hm => h (List.mem_cons_of_mem c hm))]

/-- A star-free character list has no first-star index. -/
theorem firstStarIdx_none (cs : List Char) (h : '*' ∉ cs) :
    firstStarIdx cs = none := by
  induction cs with
  | nil => rfl
  | cons c cs ih =>
    have hc : c ≠ '*' := fun he => h (he ▸ List.mem_cons_self c cs)
    simp [firstStarIdx, hc, ih (fun hm => h (List.mem_cons_of_mem c hm))]

/-- Stripping `%` from a list that contains one strictly shortens it. -/
theorem removePercent_length_lt (cs : List Char) (h : '%' ∈ cs) :
    (removePercent cs).length < cs.length := by
  induction cs with
  | nil => cases h
  | cons c cs ih =>
    simp only [removePercent, List.filter_cons] at ih ⊢
    by_cases hc : c = '%'
    · have hle := List.length_filter_le (fun x => decide (x ≠ '%')) cs
      rw [if_neg (by simp [hc])]
      simp only [List.length_cons]
      omega
    · rcases List.mem_cons.mp h with h' | h'
      · exact absurd h'.symm hc
      · rw [if_pos (by simp [hc])]
        simp only [List.length_cons]
        have := ih h'
        omega

/-- On wildcard-free patterns, LIKE is just equality up to ASCII case
folding (in particular it matches only texts of the pattern's length). -/
theorem likeMatch_no_wild :
    ∀ ps : List Char, (∀ c ∈ ps, c ≠ '%' ∧ c ≠ '_') →
      ∀ cs, (likeMatch ps cs = true ↔ ps.map foldAscii = cs.map foldAscii) := by
  intro ps
  induction ps with
  | nil =>
    intro _ cs
    cases cs with
    | nil => simp [likeMatch, likeAux]
    | cons c cs' => simp [likeMatch, likeAux, likeInner]
  | cons p ps ih =>
    intro hps cs
    have hp := hps p (List.mem_cons_self p ps)
    cases cs with
    | nil => simp [likeMatch, likeAux, List.all_cons, hp.1]
    | cons c cs' =>
      have ih' := ih (fun x hx => hps x (List.mem_cons_of_mem p hx)) cs'
      show likeInner c (likeAux cs') (p :: ps) = true ↔ _
      rw [likeInner, if_neg hp.1, if_neg hp.2, Bool.and_eq_true, beq_iff_eq,
        List.map_cons, List.map_cons, List.cons.injEq]
      exact and_congr Iff.rfl ih'

/-- Evaluation of `searchLabels` with one pattern that preprocesses
successfully. -/
theorem searchLabels_single_ok (db : Db) (cursor : Option Nat) (limit : Nat)
    (p : String) (sources : List String) (q : String)
    (hne : (([p] : List String).contains "*") = false)
    (hproc : processPattern p = Except.ok q) :
    searchLabels db cursor limit [p] sources =
      Except.ok ((sortById (db.rows.filter fun r =>
        sqlWhere [q.toList] r.uri.toList (srcCond sources r)
          (cursorCond cursor r))).take limit) := by
  unfold searchLabels
  rw [hne]
  simp [List.mapM, List.mapM.loop, hproc]

/-- A `createLabel` call whose INSERT succeeds: the saved label keeps the
requested `val`, `neg`, `uri`, `cid`, gets id `seq + 1`, and the state gains
exactly one row. -/
theorem createLabel_ok (st : SState) (d : CreateLabelData)
    (h : st.db.insertOk st.db.attempts = true) :
    ∃ sl : SavedLabel,
      createLabel st d =
        (Except.ok sl,
         { st with db :=
            { st.db with
                rows := st.db.rows ++ [rowOfLabel (st.db.seq + 1) sl.label]
                seq := st.db.seq + 1
                attempts := st.db.attempts + 1 } }) ∧
      sl.id = st.db.seq + 1 ∧ sl.label.val = d.val ∧ sl.label.neg = d.neg ∧
      sl.label.uri = d.uri ∧ sl.label.cid = d.cid := by
  refine ⟨{ id := st.db.seq + 1
            label := signLabel
              { src := d.src.getD st.did, uri := d.uri, cid := d.cid, val := d.val
                neg := d.neg, cts := d.cts.getD st.now, exp := d.exp
                ver := none, sig := none } st.signingKey },
    ?_, rfl, rfl, rfl, rfl, rfl⟩
  simp [createLabel, serverSaveLabel, resignStep, labelIsSigned, saveLabelDb, h, Db.insert]

/-- A `createLabel` call whose INSERT fails: the error of
`DefaultDbProvider.saveLabel` propagates and no row is written. -/
theorem createLabel_fail (st : SState) (d : CreateLabelData)
    (h : st.db.insertOk st.db.attempts = false) :
    createLabel st d =
      (Except.error insertErr,
       { st with db := { st.db with attempts := st.db.attempts + 1 } }) := by
  simp [createLabel, serverSaveLabel, resignStep, labelIsSigned, saveLabelDb, h]

/-- One loop of `createLabels` when every INSERT it attempts succeeds: it
returns one saved label per value in order, all carrying the subject's `uri`
and `cid` and the loop's `neg`, and appends exactly those rows. -/
theorem createMany_ok (subj : SubjectRef) (negv : Option Bool) :
    ∀ (vals : List String) (st : SState),
      (∀ i, i < vals.length → st.db.insertOk (st.db.attempts + i) = true) →
      ∃ ls st',
        createMany subj negv st vals = (Except.ok ls, st') ∧
        ls.map (fun l => (l.label.val, l.label.neg)) = vals.map (fun v => (v, negv)) ∧
        (∀ l ∈ ls, l.label.uri = subj.uri ∧ l.label.cid = subj.cid) ∧
        st'.db.insertOk = st.db.insertOk ∧
        st'.db.attempts = st.db.attempts + vals.length ∧
        st'.db.rows.map Row.val = st.db.rows.map Row.val ++ vals := by
  intro vals
  induction vals with
  | nil =>
    intro st _
    exact ⟨[], st, rfl, rfl, by simp, rfl, rfl, by simp⟩
  | cons v vs ih =>
    intro st hok
    have h0 : st.db.insertOk st.db.attempts = true := by
      have := hok 0 (by simp)
      simpa using this
    obtain ⟨sl, hcl, hid, hval, hneg, huri, hcid⟩ := createLabel_ok st
      { val := v, uri := subj.uri, cid := subj.cid, neg := negv
        src := none, cts := none, exp := none } h0
    have h1 : ∀ i, i < vs.length →
        ({ st with db :=
            { st.db with
                rows := st.db.rows ++ [rowOfLabel (st.db.seq + 1) sl.label]
                seq := st.db.seq + 1
                attempts := st.db.attempts + 1 } } : SState).db.insertOk
          (({ st with db :=
            { st.db with
                rows := st.db.rows ++ [rowOfLabel (st.db.seq + 1) sl.label]
                seq := st.db.seq + 1
                attempts := st.db.attempts + 1 } } : SState).db.attempts + i) = true := by
      intro i hi
      have := hok (i + 1) (by simpa using Nat.succ_lt_succ hi)
      simpa [Nat.add_assoc, Nat.add_comm 1 i] using this
    obtain ⟨ls, st', hrec, hmap, hmem, hokeq, hatt, hrows⟩ := ih _ h1
    refine ⟨sl :: ls, st', ?_, ?_, ?_, ?_, ?_, ?_⟩
    · simp only [createMany, hcl, hrec]
    · simp [hval, hneg, hmap]
    · intro l hl
      rcases List.mem_cons.mp hl with rfl | hl
      · exact ⟨huri, hcid⟩
      · exact hmem l hl
    · simpa using hokeq
    · simp only [hatt]; simp; omega
    · rw [hrows]; simp [rowOfLabel, hval]

/-- One loop of `createLabels` whose k-th INSERT is the first to fail: the
error propagates and exactly the first k-1 values remain appended. -/
theorem createMany_fail (subj : SubjectRef) (negv : Option Bool) :
    ∀ (vals : List String) (k : Nat) (st : SState),
      1 ≤ k → k ≤ vals.length →
      (∀ i, i < k - 1 → st.db.insertOk (st.db.attempts + i) = true) →
      st.db.insertOk (st.db.attempts + (k - 1)) = false →
      ∃ st',
        createMany subj negv st vals = (Except.error insertErr, st') ∧
        st'.db.rows.map Row.val = st.db.rows.map Row.val ++ vals.take (k - 1) := by
  intro vals
  induction vals with
  | nil =>
    intro k st hk1 hk2 _ _
    simp at hk2
    omega
  | cons v vs ih =>
    intro k st hk1 hk2 hok hfail
    simp only [List.length_cons] at hk2
    by_cases hk : k = 1
    · subst hk
      have h0 : st.db.insertOk st.db.attempts = false := by simpa using hfail
      refine ⟨{ st with db := { st.db with attempts := st.db.attempts + 1 } }, ?_, by simp⟩
      simp only [createMany,
        createLabel_fail st
          { val := v, uri := subj.uri, cid := subj.cid, neg := negv
            src := none, cts := none, exp := none } h0]
    · obtain ⟨k', rfl⟩ : ∃ k', k = k' + 1 := ⟨k - 1, by omega⟩
      have hk'1 : 1 ≤ k' := by omega
      have h0 : st.db.insertOk st.db.attempts = true := by
        have := hok 0 (by omega)
        simpa using this
      obtain ⟨sl, hcl, hid, hval, hneg, huri, hcid⟩ := createLabel_ok st
        { val := v, uri := subj.uri, cid := subj.cid, neg := negv
          src := none, cts := none, exp := none } h0
      obtain ⟨st', hrec, hrows⟩ := ih k'
        { st with db :=
            { st.db with
                rows := st.db.rows ++ [rowOfLabel (st.db.seq + 1) sl.label]
                seq := st.db.seq + 1
                attempts := st.db.attempts + 1 } }
        hk'1 (by omega)
        (by
          intro i hi
          have := hok (i + 1) (by omega)
          simpa [Nat.add_assoc, Nat.add_comm 1 i] using this)
        (by
          have := hfail
          have harith : st.db.attempts + 1 + (k' - 1) = st.db.attempts + (k' + 1 - 1) := by
            omega
          simpa [harith] using this)
      refine ⟨st', ?_, ?_⟩
      · simp only [createMany, hcl, hrec]
      · rw [hrows]
        have : k' + 1 - 1 = (k' - 1) + 1 := by omega
        simp [this, rowOfLabel, hval, List.take_succ_cons]

/-! ## Claims -/

/-- C1.  The catch-up/live seam in `subscribeLabelsHandler` drops appends.
Failing schedule: a subscriber connects with cursor 0 over an empty store; the
`isCursorInTheFuture` check passes; the `for await` catch-up loop observes the
store empty; then — before `addSubscription` runs — another request appends
label id 1 and `emitLabel` fans out only to registered connections; finally
the handler registers the subscriber.  Outcome: id 1 > cursor 0 is in the
store, the subscriber ends live, yet it was never sent any frame — the record
is silently dropped, contradicting the at-least-once gap-free contract the
claim states. -/
theorem c1_seam_drop_run :
    (wsRun 0 (wsInit (dbOf [])) [Ev.sub, Ev.sub, Ev.app sampleLabel, Ev.sub]).frames = [] ∧
    (wsRun 0 (wsInit (dbOf [])) [Ev.sub, Ev.sub, Ev.app sampleLabel, Ev.sub]).db.rows.map Row.id
      = [1] ∧
    (wsRun 0 (wsInit (dbOf [])) [Ev.sub, Ev.sub, Ev.app sampleLabel, Ev.sub]).phase
      = Phase.live := by
  refine ⟨rfl, rfl, rfl⟩

/-- C2.  The WHERE clause of `searchLabels` joins the per-pattern `LIKE`
conditions with bare `OR` between the `AND`-chained filters, and SQL `AND`
binds tighter than `OR`; so with two patterns a record matching the first
pattern is returned even though its `src` is not among `sources` and its `id`
is not greater than the cursor.  Here: cursor 5, sources `["s2"]`, patterns
`["a","b"]`, and the returned row has id 1 ≤ 5 and src `"s1" ∉ ["s2"]`,
refuting the claim that every returned record satisfies all three filters. -/
theorem c2_filter_bypass_run :
    searchLabels (dbOf [srow]) (some 5) 50 ["a", "b"] ["s2"] = Except.ok [srow] ∧
    ¬ (5 < srow.id) ∧ srow.src ∉ (["s2"] : List String) := by
  refine ⟨?_, by decide, by decide⟩
  rfl

/-- C8 counterexample.  The claim says every pattern list containing an
interior-wildcard pattern such as `"a*b*"` makes `searchLabels` fail; but when
the list also contains the literal `"*"`, `searchLabels` drops all patterns
without validating them and returns records normally. -/
theorem c8_counterexample_star_disables_checks :
    "a*b*" ∈ (["*", "a*b*"] : List String) ∧
    searchLabels (dbOf [srow]) none 50 ["*", "a*b*"] [] = Except.ok [srow] := by
  refine ⟨by decide, rfl⟩

/-- C8 amended.  Provided the pattern list does not contain the literal `"*"`
(which makes `searchLabels` drop all patterns unvalidated), any pattern that
still has a `*` at a non-final position after `%` characters are stripped
makes the whole search fail with the `InvalidRequest` unsupported-pattern
error, returning no records. -/
theorem c8_interior_wildcard_rejected_amended (db : Db) (cursor : Option Nat)
    (limit : Nat) (ps sources : List String) (p : String) (hp : p ∈ ps)
    (hstar : ps.contains "*" = false)
    (hint : interiorStarAfterPercentRemoval p = true) :
    searchLabels db cursor limit ps sources = Except.error unsupportedPatternErr := by
  have hloop : List.mapM.loop processPattern ps [] =
      (Except.error unsupportedPatternErr : Except Err (List String)) :=
    mapM_processPattern_error ps p hp (processPattern_interior p hint) []
  unfold searchLabels
  rw [hstar]
  simp [List.mapM, hloop, except_bind_error]

/-- Witness for amended C8: the single interior-wildcard pattern `"a*b*"`
fails the search. -/
theorem c8_interior_wildcard_rejected_amended_witness :
    searchLabels (dbOf [srow]) none 50 ["a*b*"] [] =
      Except.error unsupportedPatternErr :=
  c8_interior_wildcard_rejected_amended (dbOf [srow]) none 50 ["a*b*"] [] "a*b*"
    (by decide) (by decide) (by decide)

/-- C6.  The signing step of `LabelerServer.saveLabel` is idempotent:
re-signing changes nothing (`resignStep (resignStep x) = resignStep x`), and a
label that already carries a (non-empty) signature passes through unchanged. -/
theorem c6_sign_idempotent (l : Label) (key : List Nat) :
    resignStep key (resignStep key l) = resignStep key l ∧
    (labelIsSigned l = true → resignStep key l = l) := by
  constructor
  · by_cases h : labelIsSigned l
    · simp [resignStep, h]
    · have h2 : labelIsSigned (signLabel l key) = true := by
        simp [labelIsSigned, signLabel]
      simp [resignStep, h, h2]
  · intro h
    simp [resignStep, h]

/-- Witness for C6 at concrete inputs: an unsigned label and an
already-signed label. -/
theorem c6_sign_idempotent_witness :
    (resignStep [7, 7] (resignStep [7, 7] sampleLabel) = resignStep [7, 7] sampleLabel) ∧
    (resignStep [7, 7] { sampleLabel with sig := some [9] }
      = { sampleLabel with sig := some [9] }) :=
  ⟨(c6_sign_idempotent sampleLabel [7, 7]).1,
   (c6_sign_idempotent { sampleLabel with sig := some [9] } [7, 7]).2 (by decide)⟩

/-- C9.  `emitEventHandler` rejects any body without a `createdBy` field with
`InvalidRequest` ("Missing required field(s)"), before looking at the event
type, the subject or the label value lists, and without touching the store. -/
theorem c9_missing_createdBy_rejected (st : SState) (body : EmitEventBody)
    (h : body.createdBy = none) :
    emitEvent st body =
      (Except.error (Err.xrpc 400 "InvalidRequest" "Missing required field(s)"), st) := by
  cases hev : body.event <;> cases hsub : body.subject <;>
    simp [emitEvent, h, hev, hsub]

/-- Witness for C9: a body whose event type, subject and label values are all
valid, missing only `createdBy`, is rejected. -/
theorem c9_missing_createdBy_rejected_witness :
    emitEvent sampleState
      { event := some
          { etype := "tools.ozone.moderation.defs#modEventLabel"
            createLabelVals := some ["spam"], negateLabelVals := some ["porn"] }
        subject := some (EventSubject.strongRef "at://x" "c1")
        subjectBlobCids := some [], createdBy := none } =
      (Except.error (Err.xrpc 400 "InvalidRequest" "Missing required field(s)"),
        sampleState) :=
  c9_missing_createdBy_rejected sampleState _ rfl

/-- C4.  A subscriber connecting with a cursor strictly greater than the
store's maximum id gets exactly one `FutureCursor` error frame and a closed
socket; since the statement holds for **every** continuation schedule `evs`
(and hence for every prefix of it), the subscriber receives no data frame and
is never registered live at any later point. -/
theorem c4_future_cursor_terminal (db : Db) (cursor : Nat) (evs : List Ev)
    (h : db.maxId < cursor) :
    (wsRun cursor (wsInit db) (Ev.sub :: evs)).frames = [Frame.errFuture] ∧
    (wsRun cursor (wsInit db) (Ev.sub :: evs)).phase = Phase.closed := by
  have hstep : wsStep cursor (wsInit db) Ev.sub =
      { db := db, phase := Phase.closed, frames := [Frame.errFuture] } := by
    simp [wsStep, wsInit, isCursorInTheFuture, h]
  rw [wsRun, hstep]
  have hc := wsRun_closed cursor evs
    { db := db, phase := Phase.closed, frames := [Frame.errFuture] } rfl
  exact ⟨hc.2, hc.1⟩

/-- Witness for C4: cursor 2 over a store whose maximum id is 1, with a
subsequent append interleaved. -/
theorem c4_future_cursor_terminal_witness :
    (wsRun 2 (wsInit (dbOf [srow])) [Ev.sub, Ev.app sampleLabel]).frames
      = [Frame.errFuture] ∧
    (wsRun 2 (wsInit (dbOf [srow])) [Ev.sub, Ev.app sampleLabel]).phase
      = Phase.closed :=
  c4_future_cursor_terminal (dbOf [srow]) 2 [Ev.app sampleLabel] (by decide)

/-- C5.  For any subject and any pair of value lists, `createLabels` (with
every INSERT succeeding) returns one saved label per value in order — the
create-list values first with `neg` absent, then the negate-list values with
`neg = true` — all carrying the subject's `uri` and `cid`. -/
theorem c5_createLabels_order (subj : SubjectRef) (cr ng : List String)
    (st : SState) (hok : ∀ n, st.db.insertOk n = true) :
    ∃ ls st',
      createLabels st subj (some cr) (some ng) = (Except.ok ls, st') ∧
      ls.map (fun l => (l.label.val, l.label.neg)) =
        cr.map (fun v => (v, (none : Option Bool))) ++ ng.map (fun v => (v, some true)) ∧
      ∀ l ∈ ls, l.label.uri = subj.uri ∧ l.label.cid = subj.cid := by
  obtain ⟨ls1, st1, h1, hm1, hmem1, hok1, _, _⟩ :=
    createMany_ok subj none cr st (fun i _ => hok _)
  obtain ⟨ls2, st2, h2, hm2, hmem2, _, _, _⟩ :=
    createMany_ok subj (some true) ng st1 (fun i _ => by rw [hok1]; exact hok _)
  refine ⟨ls1 ++ ls2, st2, ?_, ?_, ?_⟩
  · simp only [createLabels, Option.getD_some, h1, h2]
  · simp [hm1, hm2]
  · intro l hl
    rcases List.mem_append.mp hl with h | h
    · exact hmem1 l h
    · exact hmem2 l h

/-- Witness for C5: the claim's concrete instance
`createLabels({uri:"at://x", cid:"c1"}, {create:["spam"], negate:["porn"]})`. -/
theorem c5_createLabels_order_witness :
    ∃ ls st',
      createLabels sampleState { uri := "at://x", cid := some "c1" }
          (some ["spam"]) (some ["porn"]) = (Except.ok ls, st') ∧
      ls.map (fun l => (l.label.val, l.label.neg)) =
        ["spam"].map (fun v => (v, (none : Option Bool))) ++
          ["porn"].map (fun v => (v, some true)) ∧
      ∀ l ∈ ls, l.label.uri = "at://x" ∧ l.label.cid = some "c1" :=
  c5_createLabels_order { uri := "at://x", cid := some "c1" } ["spam"] ["porn"]
    sampleState (fun _ => rfl)

/-- C7.  `createLabels` is not atomic: if the k-th individual `createLabel`
call is the first to fail, the whole call returns the insert error, and the
k-1 labels appended by the earlier iterations remain in the log (their `val`s
are exactly the first k-1 requested values; nothing rolls them back). -/
theorem c7_createLabels_no_rollback (subj : SubjectRef) (cr ng : List String)
    (st : SState) (k : Nat) (hk1 : 1 ≤ k) (hk2 : k ≤ cr.length + ng.length)
    (hok : ∀ i, i < k - 1 → st.db.insertOk (st.db.attempts + i) = true)
    (hfail : st.db.insertOk (st.db.attempts + (k - 1)) = false) :
    ∃ st',
      createLabels st subj (some cr) (some ng) = (Except.error insertErr, st') ∧
      st'.db.rows.map Row.val = st.db.rows.map Row.val ++ (cr ++ ng).take (k - 1) := by
  by_cases hcase : k ≤ cr.length
  · obtain ⟨st', heq, hrows⟩ := createMany_fail subj none cr k st hk1 hcase hok hfail
    refine ⟨st', ?_, ?_⟩
    · simp only [createLabels, Option.getD_some, heq]
    · rw [hrows, List.take_append_eq_append_take,
        Nat.sub_eq_zero_of_le (by omega : k - 1 ≤ cr.length)]
      simp
  · push_neg at hcase
    obtain ⟨ls1, st1, h1, _, _, hok1, hatt1, hrows1⟩ :=
      createMany_ok subj none cr st (fun i hi => hok i (by omega))
    obtain ⟨st', heq, hrows⟩ := createMany_fail subj (some true) ng (k - cr.length) st1
      (by omega) (by omega)
      (by
        intro i hi
        rw [hok1, hatt1]
        have := hok (cr.length + i) (by omega)
        simpa [Nat.add_assoc] using this)
      (by
        rw [hok1, hatt1]
        have harith : st.db.attempts + cr.length + (k - cr.length - 1)
            = st.db.attempts + (k - 1) := by omega
        rw [harith]
        exact hfail)
    refine ⟨st', ?_, ?_⟩
    · simp only [createLabels, Option.getD_some, h1, heq]
    · rw [hrows, hrows1, List.append_assoc, List.take_append_eq_append_take,
        List.take_of_length_le (by omega : cr.length ≤ k - 1)]
      have : k - 1 - cr.length = k - cr.length - 1 := by omega
      rw [this]

/-- Witness for C7: a store whose very first INSERT fails (k = 1): the error
surfaces and nothing is appended. -/
theorem c7_createLabels_no_rollback_witness :
    ∃ st',
      createLabels { sampleState with db := emptyDb (fun _ => false) }
          { uri := "at://x", cid := none } (some ["a"]) (some []) =
        (Except.error insertErr, st') ∧
      st'.db.rows.map Row.val =
        ({ sampleState with db := emptyDb (fun _ => false) } : SState).db.rows.map Row.val
          ++ (["a"] ++ []).take (1 - 1) :=
  c7_createLabels_no_rollback { uri := "at://x", cid := none } ["a"] []
    { sampleState with db := emptyDb (fun _ => false) } 1 (by decide) (by decide)
    (fun i hi => absurd hi (by omega)) rfl

/-- C3.  Successful `saveLabel` appends into an initially empty store are
assigned exactly the ids `1, 2, …, n` (`List.range' 1 n`): positive, strictly
increasing, gap-free, duplicate-free, never reused. -/
theorem c3_append_ids_consecutive (ls : List Label) (ok : Nat → Bool)
    (h : ∀ n, ok n = true) :
    (appendAll (emptyDb ok) ls).1 = List.range' 1 ls.length :=
  appendAll_ok_ids ls (emptyDb ok) h

/-- Witness for C3: three appends into an empty store get ids `[1, 2, 3]`. -/
theorem c3_append_ids_consecutive_witness :
    (appendAll (emptyDb (fun _ => true)) [sampleLabel, sampleLabel, sampleLabel]).1
      = [1, 2, 3] :=
  (c3_append_ids_consecutive [sampleLabel, sampleLabel, sampleLabel]
    (fun _ => true) (fun _ => rfl)).trans (by decide)

/-- C10.  `searchLabels` deletes every `%` from a pattern before matching:
a wildcard-free pattern (no `*`, no `_`) matches a record whose `uri` equals
the pattern with its `%` characters removed, and — when the pattern does
contain a `%` — does not match a record whose `uri` equals the pattern
literally. -/
theorem c10_percent_stripped_matching (p : String) (r : Row)
    (hstar : '*' ∉ p.toList) (hund : '_' ∉ p.toList) :
    (r.uri.toList = removePercent p.toList →
      searchLabels (dbOf [r]) none 50 [p] [] = Except.ok [r]) ∧
    ('%' ∈ p.toList → r.uri = p →
      searchLabels (dbOf [r]) none 50 [p] [] = Except.ok []) := by
  have hqchars : processedChars p = removePercent p.toList :=
    escapeUnderscore_id _ (fun hm => hund (List.mem_of_mem_filter hm))
  have hnostar : firstStarIdx (processedChars p) = none := by
    rw [hqchars]
    exact firstStarIdx_none _ (fun hm => hstar (List.mem_of_mem_filter hm))
  have hproc : processPattern p = Except.ok (String.mk (removePercent p.toList)) := by
    unfold processPattern
    rw [hnostar, hqchars]
  have hps : p ≠ "*" := by
    intro he
    apply hstar
    rw [he]
    decide
  have hne : (([p] : List String).contains "*") = false := by
    simp [List.contains, Ne.symm hps]
  have hwild : ∀ c ∈ removePercent p.toList, c ≠ '%' ∧ c ≠ '_' := by
    intro c hc
    refine ⟨?_, fun he => hund (he ▸ List.mem_of_mem_filter hc)⟩
    have := List.of_mem_filter hc
    simpa using this
  constructor
  · intro huri
    have hmatch : likeMatch (removePercent p.toList) r.uri.toList = true := by
      rw [likeMatch_no_wild _ hwild, huri]
    rw [searchLabels_single_ok (dbOf [r]) none 50 p [] _ hne hproc]
    simp [dbOf, sqlWhere, srcCond, cursorCond, sortById, insertById, List.filter,
      show likeMatch (removePercent p.data) r.uri.data = true from hmatch]
  · intro hpc huri
    have huri' : r.uri.toList = p.toList := by rw [huri]
    have hmatch : likeMatch (removePercent p.toList) r.uri.toList = false := by
      have hlen : (removePercent p.toList).length < p.toList.length :=
        removePercent_length_lt _ hpc
      cases hb : likeMatch (removePercent p.toList) r.uri.toList with
      | false => rfl
      | true =>
        exfalso
        have hmaps := (likeMatch_no_wild _ hwild r.uri.toList).mp hb
        have hlens := congrArg List.length hmaps
        rw [List.length_map, List.length_map, huri'] at hlens
        omega
    rw [searchLabels_single_ok (dbOf [r]) none 50 p [] _ hne hproc]
    simp [dbOf, sqlWhere, srcCond, cursorCond, sortById, List.filter,
      show likeMatch (removePercent p.data) r.uri.data = false from hmatch]

/-- Witness for C10: pattern `"a%b"` matches the record with uri `"ab"` and
not the record with uri `"a%b"`. -/
theorem c10_percent_stripped_matching_witness :
    searchLabels (dbOf [{ srow with uri := "ab" }]) none 50 ["a%b"] [] =
      Except.ok [{ srow with uri := "ab" }] ∧
    searchLabels (dbOf [{ srow with uri := "a%b" }]) none 50 ["a%b"] [] =
      Except.ok [] :=
  ⟨(c10_percent_stripped_matching "a%b" { srow with uri := "ab" }
      (by decide) (by decide)).1 (by decide),
   (c10_percent_stripped_matching "a%b" { srow with uri := "a%b" }
      (by decide) (by decide)).2 (by decide) rfl⟩

end Labeler





